import Mathlib

/-!
Shallow embedding of the sudoku-checker repository (GeneralYouri/sudoku-checker).

The authoritative draft is `src/unnamed/part_001`: it supersedes `src/src/check.js`
and `src/unnamed/part_000` (both carry the TODO that part_001 resolves and cover a
strict subset of the rule variants).  Cell values are JS numbers restricted to the
integers the puzzle uses, modelled as `Int`.  A rule holds references to `Cell`
objects; we model a cell reference as a `Nat` identifier and the mutable heap of
cell values as an assignment `σ : Nat → Int`.
-/

namespace SudokuChecker

/-- Tri-state for the JS fields `isSum` / `isRelation`, whose value in the source
is `false`, `true`, or `undefined` (`RuleThermometer` declares `isRelation;` with
no initializer, leaving it `undefined`). -/
inductive Flag
  | fls
  | tru
  | undef
deriving DecidableEq

/-- The guard the source uses: `if (this.isSum !== false && ...)`.  Both `true`
and `undefined` pass the `!== false` test. -/
def Flag.enabled : Flag → Bool
  | .fls => false
  | .tru => true
  | .undef => true

/-- `cellValues.reduce((acc, cell) => acc + cell, 0)` — sum of a list of values. -/
def sumValues (values : List Int) : Int :=
  values.foldl (· + ·) 0

/-- `checkUniques`: `new Set(this.cellValues).size === this.cellCount`. -/
def checkUniques (values : List Int) : Bool :=
  values.dedup.length == values.length

/-- `checkRelation`: `this.cellValues.every((value, i) => i === 0 ||
this.relation(this.cellValues[i - 1], value))`.  The JS `every` callback receives
`(values[i], i)` for every index `i < values.length`. -/
def checkRelation (rel : Int → Int → Bool) (values : List Int) : Bool :=
  (List.range values.length).all fun i =>
    i == 0 || rel (values.getD (i - 1) 0) (values.getD i 0)

/-- `RuleBase.check()`: run each of the three standard sub-checks whenever its
flag is enabled (`isUniques` truthy; `isSum !== false`; `isRelation !== false`),
returning `false` as soon as an enabled sub-check fails.  `sumCheck` receives the
full value list because `RuleArrow`'s sum predicate reads `this.cellValues[0]`. -/
def baseCheck (isUniques : Bool) (isSum isRelation : Flag)
    (sumCheck : List Int → Bool) (rel : Int → Int → Bool)
    (values : List Int) : Bool :=
  if isUniques && !(checkUniques values) then false
  else if isSum.enabled && !(sumCheck values) then false
  else if isRelation.enabled && !(checkRelation rel values) then false
  else true

/-- Placeholder for the `sum` field of rules that never enable the sum check
(the field is `undefined` in the source and the guard keeps it from being read). -/
def noSum : List Int → Bool := fun _ => false

/-- Placeholder for the `relation` field of rules that never enable the relation
check (the field is `undefined` in the source and the guard keeps it from being
read). -/
def noRel : Int → Int → Bool := fun _ _ => false

/-- JS `Array.prototype.indexOf`: index of the first occurrence, `-1` if absent. -/
def jsIndexOf (values : List Int) (x : Int) : Int :=
  match values.findIdx? (· == x) with
  | some i => (i : Int)
  | none => -1

/-- JS `Array.prototype.slice(start, stop)`: negative indices count from the end,
then both bounds are clamped to `[0, length]`. -/
def jsSlice (values : List Int) (start stop : Int) : List Int :=
  let n : Int := values.length
  let s : Int := if start < 0 then max (n + start) 0 else min start n
  let e : Int := if stop < 0 then max (n + stop) 0 else min stop n
  (values.drop s.toNat).take (e - s).toNat

/-- `RulePalindrome.check`: `this.cellValues.every((value, i) => value ===
this.cellValues[this.cellValues.length - 1 - i])`. -/
def palindromeCheck (values : List Int) : Bool :=
  (List.range values.length).all fun i =>
    values.getD i 0 == values.getD (values.length - 1 - i) 0

/-- `RuleSandwich.check`: locate both sentinel symbols with `indexOf` (yielding
`-1` when absent), sum the slice strictly between the two positions, compare to
the target. -/
def sandwichCheck (minSymbol maxSymbol target : Int) (values : List Int) : Bool :=
  let mn := jsIndexOf values minSymbol
  let mx := jsIndexOf values maxSymbol
  sumValues (jsSlice values (min mn mx + 1) (max mn mx)) == target

/-- `RuleClone.check`: `this.cellValues.every(clone => clone.every((cell, i) =>
cell === this.cellValues[0][i]))`.  An out-of-range JS index yields `undefined`,
which a number never equals, hence the `Option`-valued lookup. -/
def cloneCheck (groups : List (List Int)) : Bool :=
  groups.all fun g =>
    (List.range g.length).all fun i =>
      (groups.getD 0 []).get? i == some (g.getD i 0)

/-- `RuleArrow`'s sum field: `n => n === 2 * this.cellValues[0]`.  On an empty
cell list `cellValues[0]` is `undefined` and the comparison with `NaN` fails. -/
def arrowSum (values : List Int) : Bool :=
  match values.head? with
  | none => false
  | some v => sumValues values == 2 * v

/-- `RuleBetweenLine.check`: every value strictly between the first and last
(slice(1, -1)) lies strictly between `min(left, right)` and `max(left, right)`. -/
def betweenLineCheck (values : List Int) : Bool :=
  let left := values.getD 0 0
  let right := values.getD (values.length - 1) 0
  (jsSlice values 1 (-1)).all fun c =>
    decide (min left right < c) && decide (c < max left right)

/-- `RuleMinimum.check`: `this.cellValues.slice(1).every(cell =>
this.cellValues[0] < cell)`. -/
def minimumCheck (values : List Int) : Bool :=
  (values.drop 1).all fun c => decide (values.getD 0 0 < c)

/-- `RuleMaximum.check`: `this.cellValues.slice(1).every(cell =>
this.cellValues[0] > cell)`. -/
def maximumCheck (values : List Int) : Bool :=
  (values.drop 1).all fun c => decide (values.getD 0 0 > c)

/-- `RuleQuadruple.check`: `this.quadruple.every(quad =>
this.cellValues.includes(quad))`. -/
def quadrupleCheck (quad : List Int) (values : List Int) : Bool :=
  quad.all fun d => values.contains d

/-- The closed set of rule variants of `part_001`.  Each flat variant stores the
identifiers of its referenced cells in reference order; `clone` stores groups of
groups; `ratioClue` is the source's `RuleRatio`. -/
inductive Rule
  | region (cells : List Nat)
  | odd (cells : List Nat)
  | even (cells : List Nat)
  | thermometer (cells : List Nat)
  | palindrome (cells : List Nat)
  | killerCage (cells : List Nat) (target : Int)
  | littleKiller (cells : List Nat) (target : Int)
  | sandwich (cells : List Nat) (minSymbol maxSymbol target : Int)
  | difference (cells : List Nat) (d : Int)
  | ratioClue (cells : List Nat) (r : Int)
  | clone (groups : List (List Nat))
  | arrow (cells : List Nat)
  | betweenLine (cells : List Nat)
  | minimum (cells : List Nat)
  | maximum (cells : List Nat)
  | xv (cells : List Nat) (target : Int)
  | quadruple (cells : List Nat) (quad : List Int)
deriving DecidableEq

/-- All cell references a rule holds (`#cells`, flattened for `clone`). -/
def Rule.refs : Rule → List Nat
  | .region cells => cells
  | .odd cells => cells
  | .even cells => cells
  | .thermometer cells => cells
  | .palindrome cells => cells
  | .killerCage cells _ => cells
  | .littleKiller cells _ => cells
  | .sandwich cells _ _ _ => cells
  | .difference cells _ => cells
  | .ratioClue cells _ => cells
  | .clone groups => groups.flatten
  | .arrow cells => cells
  | .betweenLine cells => cells
  | .minimum cells => cells
  | .maximum cells => cells
  | .xv cells _ => cells
  | .quadruple cells _ => cells

/-- `rule.check()` of each variant, as a function of the current heap of cell
values `σ`; `cellValues` is `#cells.map(cell => cell.value)`, read fresh.  The
flag arguments reproduce each class's field values (`RuleThermometer` leaves
`isRelation` undefined, which still passes the `!== false` guard; JS `%` is
truncating remainder, hence `Int.tmod`). -/
def Rule.check (r : Rule) (σ : Nat → Int) : Bool :=
  match r with
  | .region cells =>
      baseCheck true .fls .fls noSum noRel (cells.map σ)
  | .odd cells =>
      baseCheck false .tru .fls (fun vs => Int.tmod (sumValues vs) 2 == 1) noRel (cells.map σ)
  | .even cells =>
      baseCheck false .tru .fls (fun vs => Int.tmod (sumValues vs) 2 == 0) noRel (cells.map σ)
  | .thermometer cells =>
      baseCheck false .fls .undef noSum (fun a b => decide (a < b)) (cells.map σ)
  | .palindrome cells => palindromeCheck (cells.map σ)
  | .killerCage cells target =>
      baseCheck true .tru .fls (fun vs => sumValues vs == target) noRel (cells.map σ)
  | .littleKiller cells target =>
      baseCheck false .tru .fls (fun vs => sumValues vs == target) noRel (cells.map σ)
  | .sandwich cells minSymbol maxSymbol target =>
      sandwichCheck minSymbol maxSymbol target (cells.map σ)
  | .difference cells d =>
      baseCheck false .fls .tru noSum (fun a b => a - b == d || b - a == d) (cells.map σ)
  | .ratioClue cells r =>
      baseCheck false .fls .tru noSum (fun a b => a * r == b || b * r == a) (cells.map σ)
  | .clone groups => cloneCheck (groups.map (fun g => g.map σ))
  | .arrow cells =>
      baseCheck false .tru .fls arrowSum noRel (cells.map σ)
  | .betweenLine cells => betweenLineCheck (cells.map σ)
  | .minimum cells => minimumCheck (cells.map σ)
  | .maximum cells => maximumCheck (cells.map σ)
  | .xv cells target =>
      baseCheck false .tru .fls (fun vs => sumValues vs == target) noRel (cells.map σ)
  | .quadruple cells quad => quadrupleCheck quad (cells.map σ)

/-- `RuleRegion`'s constructor: `assert.ok(cells.length === size, ...)` then
`super(cells)`.  A failed assertion throws before the rule exists, modelled as
`none`. -/
def mkRuleRegion (cells : List Nat) (size : Nat) : Option Rule :=
  if cells.length = size then some (Rule.region cells) else none

/-- `RuleSandwich`'s constructor: `assert.ok(cells.length >= 2, ...)`. -/
def mkRuleSandwich (cells : List Nat) (minSymbol maxSymbol target : Int) : Option Rule :=
  if 2 ≤ cells.length then some (Rule.sandwich cells minSymbol maxSymbol target) else none

/-- `RuleBetweenLine`'s constructor: `assert.ok(cells.length >= 2, ...)`. -/
def mkRuleBetweenLine (cells : List Nat) : Option Rule :=
  if 2 ≤ cells.length then some (Rule.betweenLine cells) else none

/-- `Puzzle.check`'s `this.rules.every(rule => { console.log(rule.name,
rule.check(puzzle.grid)); return rule.check(puzzle.grid); })`.  JS `every`
visits the rules in order and stops at the first callback returning `false`;
each visited rule's `check()` runs twice (once for the log, once for the
returned value).  The result pairs the final boolean with the trace of rule
indices on which `check()` was invoked, one entry per invocation. -/
def checkEvery (σ : Nat → Int) : List Rule → Nat → Bool × List Nat
  | [], _ => (true, [])
  | r :: rest, i =>
    if r.check σ then
      ((checkEvery σ rest (i + 1)).1, i :: i :: (checkEvery σ rest (i + 1)).2)
    else
      (false, [i, i])

namespace Puzzle

/-- The boolean `Puzzle.check()` returns. -/
def check (rules : List Rule) (σ : Nat → Int) : Bool :=
  (checkEvery σ rules 0).1

/-- The trace of rule indices whose `check()` is invoked during
`Puzzle.check()`. -/
def checkTrace (rules : List Rule) (σ : Nat → Int) : List Nat :=
  (checkEvery σ rules 0).2

end Puzzle

/-- Object-level puzzle state: `grid[y][x]` is a reference to a `Cell` object
(here the object identity `cellOf y x : Nat`), and every `Cell`'s mutable
`value` field lives in the heap (`none` is JS `undefined`, the initial value).
Rules alias cells through the same identifiers. -/
structure PuzzleState where
  size : Nat
  cellOf : Nat → Nat → Nat
  heap : Nat → Option Int
  rules : List Rule

namespace Puzzle

/-- `new Puzzle(size)`: a `size × size` grid of freshly constructed, pairwise
distinct `Cell` objects (identity `y * size + x` for position `(x, y)`), each
with `value = undefined`, and no rules. -/
def init (size : Nat) : PuzzleState :=
  { size := size
    cellOf := fun y x => y * size + x
    heap := fun _ => none
    rules := [] }

/-- `setValue(x, y, value)`: `this.grid[y][x].value = value` — assigns the
`value` field of the existing `Cell` object; the grid itself (which object sits
at which coordinate) is untouched. -/
def setValue (p : PuzzleState) (x y : Nat) (v : Int) : PuzzleState :=
  { p with heap := fun c => if c = p.cellOf y x then some v else p.heap c }

end Puzzle

end SudokuChecker

namespace SudokuChecker

/-! ### Helper lemmas -/

theorem map_congr_mem {α β : Type} (f g : α → β) :
    ∀ (l : List α), (∀ a ∈ l, f a = g a) → l.map f = l.map g := by
  intro l
  induction l with
  | nil => intro _; rfl
  | cons a t ih =>
    intro h
    simp only [List.map_cons]
    rw [h a (List.mem_cons_self a t), ih (fun b hb => h b (List.mem_cons_of_mem a hb))]

theorem foldl_add_shift : ∀ (l : List Int) (a : Int),
    List.foldl (· + ·) a l = a + List.foldl (· + ·) 0 l := by
  intro l
  induction l with
  | nil => intro a; simp
  | cons v t ih =>
    intro a
    simp only [List.foldl_cons]
    rw [ih (a + v), ih (0 + v)]
    ring

theorem sumValues_cons (v : Int) (l : List Int) : sumValues (v :: l) = v + sumValues l := by
  simp only [sumValues, List.foldl_cons]
  rw [foldl_add_shift l (0 + v)]
  ring

theorem jsIndexOf_eq_neg_one {l : List Int} {x : Int} (h : x ∉ l) :
    jsIndexOf l x = -1 := by
  have hnone : l.findIdx? (· == x) = none := by
    rw [List.findIdx?_eq_none_iff]
    intro y hy
    simp only [beq_eq_false_iff_ne, ne_eq]
    intro h2
    subst h2
    exact h hy
  simp [jsIndexOf, hnone]

theorem neg_one_le_jsIndexOf (l : List Int) (x : Int) : (-1 : Int) ≤ jsIndexOf l x := by
  unfold jsIndexOf
  cases h : l.findIdx? (· == x) with
  | none => simp
  | some i => simp; omega

end SudokuChecker

namespace SudokuChecker

theorem checkEvery_fst_iff (σ : Nat → Int) :
    ∀ (rules : List Rule) (k : Nat),
      (checkEvery σ rules k).1 = true ↔ ∀ r ∈ rules, r.check σ = true := by
  intro rules
  induction rules with
  | nil =>
    intro k
    simp [checkEvery]
  | cons r rest ih =>
    intro k
    by_cases h : r.check σ = true
    · simp only [checkEvery, h, if_true]
      rw [ih (k + 1)]
      constructor
      · intro hall r' hr'
        rcases List.mem_cons.mp hr' with rfl | hmem
        · exact h
        · exact hall r' hmem
      · intro hall r' hr'
        exact hall r' (List.mem_cons_of_mem r hr')
    · simp only [checkEvery, h, if_false, Bool.false_eq_true, false_iff, not_forall]
      refine ⟨r, ?_⟩
      simp [h]

theorem checkEvery_mem_trace (σ : Nat → Int) :
    ∀ (rules : List Rule) (k i : Nat),
      i ∈ (checkEvery σ rules k).2 ↔
        ∃ m, m < rules.length ∧ i = k + m ∧
          (rules.take m).all (fun r => r.check σ) = true := by
  intro rules
  induction rules with
  | nil =>
    intro k i
    simp [checkEvery]
  | cons r rest ih =>
    intro k i
    by_cases h : r.check σ = true
    · simp only [checkEvery, h, if_true, List.mem_cons]
      rw [ih (k + 1) i]
      constructor
      · rintro (rfl | rfl | ⟨m, hm, rfl, hall⟩)
        · exact ⟨0, by simp⟩
        · exact ⟨0, by simp⟩
        · refine ⟨m + 1, by simp; omega, by omega, ?_⟩
          simp [List.take_succ_cons, List.all_cons, h, hall]
      · rintro ⟨m, hm, rfl, hall⟩
        cases m with
        | zero => left; omega
        | succ m' =>
          right; right
          refine ⟨m', ?_, by omega, ?_⟩
          · simpa using hm
          · simpa [List.take_succ_cons, List.all_cons, h] using hall
    · simp only [checkEvery, h, if_false]
      constructor
      · intro hmem
        refine ⟨0, by simp, ?_, by simp⟩
        rcases List.mem_cons.mp hmem with h1 | h1
        · omega
        · rcases List.mem_cons.mp h1 with h2 | h2
          · omega
          · simp at h2
      · rintro ⟨m, hm, hi, hall⟩
        cases m with
        | zero =>
          subst hi
          simp
        | succ m' =>
          exfalso
          rw [List.take_succ_cons, List.all_cons] at hall
          simp [h] at hall

/-- C1: `Puzzle.check()` returns `true` exactly when every registered rule's
`check()` returns `true` on the current cell values — the logical AND over all
rules. -/
theorem puzzle_check_iff_all_rules (rules : List Rule) (σ : Nat → Int) :
    Puzzle.check rules σ = true ↔ ∀ r ∈ rules, r.check σ = true := by
  unfold Puzzle.check
  exact checkEvery_fst_iff σ rules 0

end SudokuChecker

namespace SudokuChecker

/-- Cell values used to exhibit the short-circuit of `Puzzle.check()`: cells 0,1
hold 5,3 (a failing two-cell thermometer) and cells 2,3 hold 1,2 (a passing
one). -/
def shortCircuitValues : Nat → Int := fun n => [5, 3, 1, 2].getD n 0

/-- Two registered rules: the first fails, the second passes, under
`shortCircuitValues`. -/
def shortCircuitRules : List Rule :=
  [Rule.thermometer [0, 1], Rule.thermometer [2, 3]]

/-- C2 counterexample: with two registered rules whose first `check()` fails,
`Puzzle.check()` invokes only rule 0 (twice, for the log and the returned
value); rule 1's `check()` is never invoked, because `Array.every` aborts at the
first `false` — refuting the claim that every registered rule is evaluated. -/
theorem puzzle_check_short_circuit_counterexample :
    Rule.check (Rule.thermometer [0, 1]) shortCircuitValues = false ∧
    Rule.check (Rule.thermometer [2, 3]) shortCircuitValues = true ∧
    Puzzle.checkTrace shortCircuitRules shortCircuitValues = [0, 0] ∧
    1 ∉ Puzzle.checkTrace shortCircuitRules shortCircuitValues := by
  refine ⟨by decide, by decide, by decide, by decide⟩

/-- C2 amended: `Puzzle.check()` does short-circuit.  A registered rule's
`check()` is invoked exactly when every rule strictly before it passes: rules up
to and including the first failing rule are evaluated (each twice, once for the
log and once for the returned value), and all later rules are skipped. -/
theorem puzzle_check_invoked_iff_prefix_passes (rules : List Rule) (σ : Nat → Int)
    (i : Nat) :
    i ∈ Puzzle.checkTrace rules σ ↔
      i < rules.length ∧ (rules.take i).all (fun r => r.check σ) = true := by
  unfold Puzzle.checkTrace
  rw [checkEvery_mem_trace σ rules 0 i]
  constructor
  · rintro ⟨m, hm, rfl, hall⟩
    refine ⟨by omega, ?_⟩
    have hzm : 0 + m = m := by omega
    rw [hzm]
    exact hall
  · rintro ⟨h1, h2⟩
    exact ⟨i, h1, by omega, h2⟩

/-- C4: the `RuleRegion` constructor asserts `cells.length === size`; a mismatch
(e.g. 8 or 10 cells against a 9-symbol puzzle) aborts construction, so no rule
object exists to ever report a check-time failure. -/
theorem region_construction_rejects_wrong_count :
    (∀ (cells : List Nat) (size : Nat),
      mkRuleRegion cells size = none ↔ cells.length ≠ size) ∧
    mkRuleRegion (List.replicate 8 0) 9 = none ∧
    mkRuleRegion (List.replicate 10 0) 9 = none ∧
    mkRuleRegion (List.replicate 9 0) 9 = some (Rule.region (List.replicate 9 0)) := by
  refine ⟨?_, by decide, by decide, by decide⟩
  intro cells size
  by_cases h : cells.length = size <;> simp [mkRuleRegion, h]

/-- C10: a between line constructed from exactly two cells (the two delimiter
circles, empty interior) passes the `cells.length >= 2` construction assertion,
and its `check()` is vacuously `true` for every pair of delimiter values, since
`slice(1, -1)` of a two-element list is empty. -/
theorem between_line_two_cells_vacuous (c0 c1 : Nat) (σ : Nat → Int) :
    mkRuleBetweenLine [c0, c1] = some (Rule.betweenLine [c0, c1]) ∧
    Rule.check (Rule.betweenLine [c0, c1]) σ = true := by
  constructor
  · simp [mkRuleBetweenLine]
  · simp only [Rule.check, betweenLineCheck, List.map_cons, List.map_nil]
    have hs : jsSlice [σ c0, σ c1] 1 (-1) = [] := by
      simp [jsSlice]
    rw [hs]
    simp

end SudokuChecker

namespace SudokuChecker

theorem baseCheck_sum_only (sumCheck : List Int → Bool) (rel : Int → Int → Bool)
    (values : List Int) :
    baseCheck false .tru .fls sumCheck rel values = sumCheck values := by
  cases h : sumCheck values <;> simp [baseCheck, Flag.enabled, h]

theorem baseCheck_relation_only (f : Flag) (hf : f.enabled = true)
    (sumCheck : List Int → Bool) (rel : Int → Int → Bool) (values : List Int) :
    baseCheck false .fls f sumCheck rel values = checkRelation rel values := by
  cases f with
  | fls => simp [Flag.enabled] at hf
  | tru => cases h : checkRelation rel values <;> simp [baseCheck, Flag.enabled, h]
  | undef => cases h : checkRelation rel values <;> simp [baseCheck, Flag.enabled, h]

theorem checkRelation_eq_true_iff (rel : Int → Int → Bool) (values : List Int) :
    checkRelation rel values = true ↔
      ∀ j, j + 1 < values.length → rel (values.getD j 0) (values.getD (j + 1) 0) = true := by
  simp only [checkRelation, List.all_eq_true, List.mem_range]
  constructor
  · intro h j hj
    have h2 := h (j + 1) (by omega)
    have hz : ((j + 1 : Nat) == 0) = false := by simp
    rw [hz, Bool.false_or] at h2
    simpa using h2
  · intro h i hi
    cases i with
    | zero => simp
    | succ j =>
      have h2 := h j (by omega)
      have hz : ((j + 1 : Nat) == 0) = false := by simp
      rw [hz, Bool.false_or]
      simpa using h2

/-- Arrow predicate exactly as the spec words it ("arrow-path sum == circle
value"): the naive per-element definition, for comparison with the implemented
doubled-target encoding. -/
def arrowNaiveCheck (circle : Int) (pathValues : List Int) : Bool :=
  sumValues pathValues == circle

/-- C5: the implemented arrow check — the total of all referenced values (circle
included) equals twice the circle value — coincides with the naive predicate
that the arrow-path values sum to the circle value, for every integer
assignment. -/
theorem arrow_doubled_sum_equiv_naive (c : Nat) (path : List Nat) (σ : Nat → Int) :
    Rule.check (Rule.arrow (c :: path)) σ = arrowNaiveCheck (σ c) (path.map σ) := by
  simp only [Rule.check, List.map_cons]
  rw [baseCheck_sum_only]
  simp only [arrowSum, List.head?_cons, arrowNaiveCheck]
  rw [sumValues_cons]
  apply Bool.eq_iff_iff.mpr
  simp only [beq_iff_eq]
  omega

/-- C6: a thermometer's `check()` holds exactly when the referenced values are
strictly increasing in reference order (every consecutive pair `a < b`); in
particular path values `[1,5,6,9]` pass and `[1,5,5,9]` fail.  (The class
leaves `isRelation` undefined, which still passes the `!== false` guard, so the
relation sub-check does run.) -/
theorem thermometer_check_iff_strict_increase :
    (∀ (cells : List Nat) (σ : Nat → Int),
      Rule.check (Rule.thermometer cells) σ = true ↔
        List.Chain' (· < ·) (cells.map σ)) ∧
    Rule.check (Rule.thermometer [0, 1, 2, 3])
      (fun n => ([1, 5, 6, 9] : List Int).getD n 0) = true ∧
    Rule.check (Rule.thermometer [0, 1, 2, 3])
      (fun n => ([1, 5, 5, 9] : List Int).getD n 0) = false := by
  refine ⟨?_, by decide, by decide⟩
  intro cells σ
  have h1 : Rule.check (Rule.thermometer cells) σ =
      checkRelation (fun a b => decide (a < b)) (cells.map σ) := by
    simp only [Rule.check]
    exact baseCheck_relation_only Flag.undef rfl _ _ _
  rw [h1, checkRelation_eq_true_iff, List.chain'_iff_get]
  constructor
  · intro h i hlt
    have h2 := h i (by omega)
    rw [List.getD_eq_getElem (cells.map σ) 0 (by omega),
      List.getD_eq_getElem (cells.map σ) 0 (by omega)] at h2
    simpa [List.get_eq_getElem] using h2
  · intro h j hj
    have h2 := h j (by omega)
    rw [List.getD_eq_getElem (cells.map σ) 0 (by omega),
      List.getD_eq_getElem (cells.map σ) 0 (by omega)]
    simpa [List.get_eq_getElem] using h2

/-- C7: a quadruple's `check()` holds exactly when every declared digit appears
as the value of at least one referenced cell — per-digit membership, not
multiset matching: a digit declared twice is satisfied by one matching cell, as
the single-cell instance with the digit 9 declared twice shows. -/
theorem quadruple_check_iff_membership :
    (∀ (cells : List Nat) (quad : List Int) (σ : Nat → Int),
      Rule.check (Rule.quadruple cells quad) σ = true ↔
        ∀ d ∈ quad, d ∈ cells.map σ) ∧
    Rule.check (Rule.quadruple [0] [9, 9]) (fun _ => (9 : Int)) = true := by
  refine ⟨?_, by decide⟩
  intro cells quad σ
  simp [Rule.check, quadrupleCheck, List.all_eq_true]

end SudokuChecker

namespace SudokuChecker

/-- Cell values for the sandwich sentinel analysis: cells 0,1 hold 2,9 — the
min-symbol 1 is absent from the line, the max-symbol 9 sits at index 1. -/
def sandwichValues : Nat → Int := fun n => [2, 9].getD n 0

/-- C3 counterexample: a legitimately constructed two-cell sandwich (min-symbol
1, max-symbol 9, target 2) over the line `[2, 9]` — the min sentinel is absent,
yet `check()` returns `true`: `indexOf` yields -1, `slice(0, 1)` is `[2]`, and
2 equals the target.  This refutes "absent sentinel ⇒ check() returns false". -/
theorem sandwich_absent_sentinel_counterexample :
    mkRuleSandwich [0, 1] 1 9 2 = some (Rule.sandwich [0, 1] 1 9 2) ∧
    (1 : Int) ∉ [0, 1].map sandwichValues ∧
    Rule.check (Rule.sandwich [0, 1] 1 9 2) sandwichValues = true := by
  refine ⟨by decide, by decide, by decide⟩

/-- C3 amended: when the min-symbol is absent from the line, `check()` neither
errors nor unconditionally fails.  `indexOf` yields -1 for the absent sentinel,
so the rule sums the slice of the line strictly before the max-symbol's
`indexOf` position (the whole line but its last cell when the max-symbol is
absent too) and returns `true` exactly when that sum equals the target — which
can be `true`, as the counterexample shows. -/
theorem sandwich_absent_min_sentinel (cells : List Nat)
    (minSymbol maxSymbol target : Int) (σ : Nat → Int)
    (h : minSymbol ∉ cells.map σ) :
    Rule.check (Rule.sandwich cells minSymbol maxSymbol target) σ =
      (sumValues (jsSlice (cells.map σ) 0 (jsIndexOf (cells.map σ) maxSymbol)) == target) := by
  simp only [Rule.check, sandwichCheck]
  rw [jsIndexOf_eq_neg_one h]
  rw [min_eq_left (neg_one_le_jsIndexOf _ _), max_eq_right (neg_one_le_jsIndexOf _ _)]
  norm_num

/-- Witness for the amended C3 theorem at the counterexample's concrete input. -/
theorem sandwich_absent_min_sentinel_witness :
    Rule.check (Rule.sandwich [0, 1] 1 9 2) sandwichValues =
      (sumValues (jsSlice ([0, 1].map sandwichValues) 0
        (jsIndexOf ([0, 1].map sandwichValues) 9)) == 2) :=
  sandwich_absent_min_sentinel [0, 1] 1 9 2 sandwichValues (by decide)

/-- C8: each rule variant's `check()` is a deterministic, pure function of the
current values of the cells it references, read fresh on each call: a repeated
call returns the identical result, and any two heaps agreeing on the referenced
cells yield the same result. -/
theorem rule_check_pure_function_of_cell_values (r : Rule) (σ σ' : Nat → Int)
    (h : ∀ c ∈ r.refs, σ c = σ' c) :
    r.check σ = r.check σ ∧ r.check σ = r.check σ' := by
  refine ⟨rfl, ?_⟩
  cases r with
  | clone groups =>
    simp only [Rule.check, Rule.refs] at h ⊢
    have hg : List.map (fun g => List.map σ g) groups
        = List.map (fun g => List.map σ' g) groups := by
      apply map_congr_mem
      intro g hgmem
      exact map_congr_mem σ σ' g (fun c hc => h c (List.mem_flatten.mpr ⟨g, hgmem, hc⟩))
    rw [hg]
  | region cells =>
    simp only [Rule.check, Rule.refs] at h ⊢
    rw [map_congr_mem σ σ' cells h]
  | odd cells =>
    simp only [Rule.check, Rule.refs] at h ⊢
    rw [map_congr_mem σ σ' cells h]
  | even cells =>
    simp only [Rule.check, Rule.refs] at h ⊢
    rw [map_congr_mem σ σ' cells h]
  | thermometer cells =>
    simp only [Rule.check, Rule.refs] at h ⊢
    rw [map_congr_mem σ σ' cells h]
  | palindrome cells =>
    simp only [Rule.check, Rule.refs] at h ⊢
    rw [map_congr_mem σ σ' cells h]
  | killerCage cells target =>
    simp only [Rule.check, Rule.refs] at h ⊢
    rw [map_congr_mem σ σ' cells h]
  | littleKiller cells target =>
    simp only [Rule.check, Rule.refs] at h ⊢
    rw [map_congr_mem σ σ' cells h]
  | sandwich cells mnS mxS target =>
    simp only [Rule.check, Rule.refs] at h ⊢
    rw [map_congr_mem σ σ' cells h]
  | difference cells d =>
    simp only [Rule.check, Rule.refs] at h ⊢
    rw [map_congr_mem σ σ' cells h]
  | ratioClue cells rr =>
    simp only [Rule.check, Rule.refs] at h ⊢
    rw [map_congr_mem σ σ' cells h]
  | arrow cells =>
    simp only [Rule.check, Rule.refs] at h ⊢
    rw [map_congr_mem σ σ' cells h]
  | betweenLine cells =>
    simp only [Rule.check, Rule.refs] at h ⊢
    rw [map_congr_mem σ σ' cells h]
  | minimum cells =>
    simp only [Rule.check, Rule.refs] at h ⊢
    rw [map_congr_mem σ σ' cells h]
  | maximum cells =>
    simp only [Rule.check, Rule.refs] at h ⊢
    rw [map_congr_mem σ σ' cells h]
  | xv cells target =>
    simp only [Rule.check, Rule.refs] at h ⊢
    rw [map_congr_mem σ σ' cells h]
  | quadruple cells quad =>
    simp only [Rule.check, Rule.refs] at h ⊢
    rw [map_congr_mem σ σ' cells h]

/-- Witness for C8 at a concrete rule and two concrete agreeing heaps. -/
theorem rule_check_pure_function_witness :
    Rule.check (Rule.thermometer [0, 1]) (fun _ => (1 : Int))
        = Rule.check (Rule.thermometer [0, 1]) (fun _ => (1 : Int)) ∧
    Rule.check (Rule.thermometer [0, 1]) (fun _ => (1 : Int))
        = Rule.check (Rule.thermometer [0, 1]) (fun n => ([1, 1] : List Int).getD n 0) :=
  rule_check_pure_function_of_cell_values (Rule.thermometer [0, 1])
    (fun _ => (1 : Int)) (fun n => ([1, 1] : List Int).getD n 0)
    (by intro c hc; fin_cases hc <;> rfl)

end SudokuChecker

namespace SudokuChecker

theorem grid_index_inj {size x y x' y' : Nat}
    (hx : x < size) (hx' : x' < size)
    (heq : y' * size + x' = y * size + x) : x' = x ∧ y' = y := by
  have h1 : (x' + y' * size) % size = x' := by
    rw [Nat.add_mul_mod_self_right, Nat.mod_eq_of_lt hx']
  have h2 : (x + y * size) % size = x := by
    rw [Nat.add_mul_mod_self_right, Nat.mod_eq_of_lt hx]
  have heq' : x' + y' * size = x + y * size := by omega
  have hxx : x' = x := by rw [← h1, ← h2, heq']
  have hyy : y' = y := by
    have hmul : y' * size = y * size := by omega
    exact Nat.eq_of_mul_eq_mul_right (by omega) hmul
  exact ⟨hxx, hyy⟩

/-- C9: on a puzzle whose grid is the one `new Puzzle(size)` builds (one fresh
`Cell` object per coordinate, all distinct), `setValue(x, y, v)` replaces no
`Cell` object (the coordinate-to-cell map is untouched, so every rule aliasing
a grid cell keeps observing the same object), stores `v` in the cell at
`(x, y)`, and leaves every other in-range cell's value unchanged. -/
theorem setValue_mutates_only_target_cell (size : Nat) (p : PuzzleState)
    (hgrid : p.cellOf = (Puzzle.init size).cellOf)
    (x y : Nat) (v : Int) (hx : x < size) (hy : y < size) :
    (Puzzle.setValue p x y v).cellOf = p.cellOf ∧
    (Puzzle.setValue p x y v).rules = p.rules ∧
    (Puzzle.setValue p x y v).heap (p.cellOf y x) = some v ∧
    ∀ x' y', x' < size → y' < size → (x', y') ≠ (x, y) →
      (Puzzle.setValue p x y v).heap (p.cellOf y' x') = p.heap (p.cellOf y' x') := by
  refine ⟨rfl, rfl, by simp [Puzzle.setValue], ?_⟩
  intro x' y' hx' hy' hne
  simp only [Puzzle.setValue]
  rw [if_neg]
  intro heq
  rw [hgrid] at heq
  simp only [Puzzle.init] at heq
  rcases grid_index_inj hx hx' heq with ⟨hxx, hyy⟩
  exact hne (by rw [hxx, hyy])

/-- Witness for C9 on the freshly constructed 9-puzzle: `setValue(2, 3, 7)`
stores 7 at the cell of coordinate `(2, 3)` and leaves the cell of `(1, 1)`
unchanged. -/
theorem setValue_mutates_only_target_cell_witness :
    (Puzzle.setValue (Puzzle.init 9) 2 3 7).heap ((Puzzle.init 9).cellOf 3 2) = some 7 ∧
    (Puzzle.setValue (Puzzle.init 9) 2 3 7).heap ((Puzzle.init 9).cellOf 1 1)
      = (Puzzle.init 9).heap ((Puzzle.init 9).cellOf 1 1) :=
  ⟨(setValue_mutates_only_target_cell 9 (Puzzle.init 9) rfl 2 3 7
      (by decide) (by decide)).2.2.1,
   (setValue_mutates_only_target_cell 9 (Puzzle.init 9) rfl 2 3 7
      (by decide) (by decide)).2.2.2 1 1 (by decide) (by decide) (by decide)⟩

end SudokuChecker
